import Mathlib

/-!
Verification of the mind-map learning tool's progress/unlock state machine,
question-and-answer flow and focus/layout engine.

The TypeScript sources are shallowly embedded: React state updates become
explicit state passing over association lists keyed by node id, awaited
network calls become explicit `Except`/`Bool` parameters carrying the call's
outcome, and JavaScript objects become Lean structures.  Sources embedded:

* `LearningContext` provider (`generateQuestions`, `answerQuestion`,
  `updateNodeStatus`, `setMindMap`);
* the `ApiService` mock backend (`generateQuestions` question table,
  `submitAnswer` keyword grading);
* the `lib/api` offline mock (`submitAnswer` with completion check and
  child unlocking over `mockSessionData`);
* `QuestionPanel.handleSubmitAnswer`;
* `mindmap.tsx` `handleNodeClick` (status effect);
* `mindmap.tsx`/`PathNavigator` variant `focusOnNode` (visible-set guard and
  child layout);
* `MindMap.tsx` `arrangeNodesHierarchically` (BFS level assignment and
  per-level positioning).
-/

set_option autoImplicit false

namespace Mindmap

/-- Per-node lifecycle status, the `'not_started' | 'in_progress' |
'completed' | 'locked'` union used throughout the frontend. -/
inductive Status where
  | locked
  | not_started
  | in_progress
  | completed
deriving DecidableEq, Repr

/-- Interface `QuestionData` from `services/api.ts`: question statuses are kept as the
raw strings used by the code (`"unanswered"`, `"passed"`, `"failed"`,
`"not_started"`); optional JS fields become `Option`. -/
structure Question where
  id : String
  text : String
  status : String
  attempts : Nat
  last_answer : Option String := none
  feedback : Option String := none
  grade : Option Nat := none
deriving DecidableEq, Repr

/-- Interface `NodeProgressData`: one entry of the `nodeProgress` record. -/
structure ProgressEntry where
  status : Status
  questions : List Question
  unlockable : Bool
deriving DecidableEq, Repr

/-- Directed edge, `{ id, source, target }`, "source is prerequisite of
target". -/
structure EdgeData where
  id : String
  source : String
  target : String
deriving DecidableEq, Repr

/-- JavaScript-object access `m[k]`: first matching key wins. -/
def alookup {β : Type} (l : List (String × β)) (k : String) : Option β :=
  match l with
  | [] => none
  | (m, v) :: rest => if m = k then some v else alookup rest k

/-- JavaScript-object assignment `m[k] = v` (or spread overwrite): replace the
first binding of `k`, appending when the key is absent. -/
def aset {β : Type} (l : List (String × β)) (k : String) (v : β) :
    List (String × β) :=
  match l with
  | [] => [(k, v)]
  | (m, w) :: rest => if m = k then (m, v) :: rest else (m, w) :: aset rest k v

theorem alookup_aset_self {β : Type} (l : List (String × β)) (k : String)
    (v : β) : alookup (aset l k v) k = some v := by
  induction l with
  | nil => simp [aset, alookup]
  | cons hd tl ih =>
      by_cases h : hd.1 = k
      · simp [aset, alookup, h]
      · simp [aset, alookup, h, ih]

theorem alookup_aset_other {β : Type} (l : List (String × β)) (k k' : String)
    (v : β) (h : k ≠ k') : alookup (aset l k v) k' = alookup l k' := by
  induction l with
  | nil => simp [aset, alookup, h]
  | cons hd tl ih =>
      by_cases hk : hd.1 = k
      · simp [aset, alookup, hk, h]
      · by_cases hk' : hd.1 = k'
        · simp [aset, alookup, hk, hk', Ne.symm h]
        · simp [aset, alookup, hk, hk', ih]

/-- The progress record `nodeProgress : Record<string, NodeProgressData>`. -/
abbrev Progress := List (String × ProgressEntry)

/-! ## `LearningContext.updateNodeStatus`

```ts
if (nodeProgress[nodeId]?.status === status) { return true; }
const success = await ApiService.updateNodeStatus(sessionId, nodeId, status);
if (success) {
  setNodeProgress(prevProgress => ({ ...prevProgress,
    [nodeId]: { ...(prevProgress[nodeId] || { questions: [], unlockable: true }),
                status } }));
}
return success;
```
The awaited network outcome is the explicit `success` parameter; it is only
consulted after the same-status short-circuit, exactly as in the source. -/

/-- Entry written by `updateNodeStatus`: spread of the existing entry (or the
`{ questions: [], unlockable: true }` default) with `status` overwritten. -/
def updatedEntry (p : Progress) (nodeId : String) (status : Status) :
    ProgressEntry :=
  match alookup p nodeId with
  | some e => { e with status := status }
  | none => { status := status, questions := [], unlockable := true }

/-- Embedding of `LearningContext.updateNodeStatus`, returning the new progress record and
the boolean handed back to the caller. -/
def updateNodeStatus (p : Progress) (nodeId : String) (status : Status)
    (success : Bool) : Progress × Bool :=
  if (alookup p nodeId).map ProgressEntry.status = some status then (p, true)
  else if success then (aset p nodeId (updatedEntry p nodeId status), true)
  else (p, false)

theorem updateNodeStatus_lookup_status (p : Progress) (nodeId : String)
    (status : Status) :
    (alookup (updateNodeStatus p nodeId status true).1 nodeId).map
      ProgressEntry.status = some status := by
  unfold updateNodeStatus
  by_cases h : (alookup p nodeId).map ProgressEntry.status = some status
  · simp [h]
  · simp only [h, if_false, if_true]
    rw [alookup_aset_self]
    unfold updatedEntry
    cases alookup p nodeId <;> simp

/-- Claim C4: Setting a node's status to `completed` twice in a row is the same
as setting it once: the second call hits the
`nodeProgress[nodeId]?.status === status` short-circuit before touching the
API or the record, so the whole progress record — in particular the node's
`ProgressEntry` (status, questions, unlockable) — is unchanged, whatever the
second call's network outcome `s₂` would have been. -/
theorem updateNodeStatus_completed_idempotent (p : Progress) (nodeId : String)
    (s₂ : Bool) :
    updateNodeStatus (updateNodeStatus p nodeId Status.completed true).1
        nodeId Status.completed s₂ =
      ((updateNodeStatus p nodeId Status.completed true).1, true) := by
  have h := updateNodeStatus_lookup_status p nodeId Status.completed
  generalize hq : (updateNodeStatus p nodeId Status.completed true).1 = q at h ⊢
  unfold updateNodeStatus
  rw [if_pos h]

/-! ## `ApiService.submitAnswer` (mock keyword grading)

```ts
const possibleAnswers = correctAnswers[questionId] || [];
const isCorrect = possibleAnswers.some(correct =>
  answer.toLowerCase().includes(correct.toLowerCase()));
return { correct: isCorrect, feedback: isCorrect ? ... : ..., nextQuestion: null };
```
-/

/-- Interface `AnswerResult` from `services/api.ts`. -/
structure AnswerResult where
  correct : Bool
  feedback : String
  nextQuestion : Option String
deriving DecidableEq, Repr

/-- Whether the first character list is an initial segment of the second. -/
def startsWithChars : List Char → List Char → Bool
  | [], _ => true
  | _ :: _, [] => false
  | c :: cs, d :: ds => c == d && startsWithChars cs ds

/-- Whether the first character list occurs contiguously in the second
(JavaScript `String.prototype.includes`). -/
def containsChars (needle : List Char) : List Char → Bool
  | [] => startsWithChars needle []
  | d :: ds => startsWithChars needle (d :: ds) || containsChars needle ds

/-- JavaScript `haystack.toLowerCase().includes(needle.toLowerCase())`
(character-wise lowering, as `String.prototype.toLowerCase` does for the
ASCII answer keys used here). -/
def includesCI (haystack needle : String) : Bool :=
  containsChars (needle.data.map Char.toLower) (haystack.data.map Char.toLower)

/-- The `correctAnswers` table of `ApiService.submitAnswer`. -/
def correctAnswers (questionId : String) : List String :=
  match questionId with
  | "q1-root" => ["attention is all you need"]
  | "q2-root" => ["parallelization", "long-range dependencies"]
  | "q1-input" => ["tokenization", "embedding", "positional encoding"]
  | "q2-input" => ["context understanding", "semantic representation"]
  | "q1-tokenization" => ["breaking text into tokens", "converting text to ids"]
  | "q2-tokenization" =>
      ["byte pair encoding", "wordpiece", "sentencepiece", "unigram", "bpe"]
  | "q1-embedding" =>
      ["convert tokens to vectors", "create numerical representations"]
  | "q2-embedding" => ["512", "768", "1024"]
  | "q1-pos" => ["sequence order", "position information"]
  | "q2-pos" => ["different frequencies", "unique position pattern"]
  | "q1-encoder" => ["self-attention", "feed-forward network"]
  | "q2-encoder" => ["6", "six"]
  | "q1-self-attention" => ["query", "key", "value"]
  | "q2-self-attention" =>
      ["parallel attention heads", "multiple attention mechanisms"]
  | "q1-ffn" => ["two linear layers", "relu activation"]
  | "q2-ffn" => ["independently on each position", "token-wise"]
  | "q1-decoder" => ["masked self-attention", "cross-attention"]
  | "q2-decoder" =>
      ["masked self-attention", "cross-attention", "feed-forward network"]
  | "q1-masked" => ["prevent looking ahead", "autoregressive generation"]
  | "q2-masked" =>
      ["setting future positions to negative infinity", "masking matrix"]
  | "q1-cross" => ["connects decoder to encoder", "attends to encoder output"]
  | "q2-cross" => ["query from decoder", "key and value from encoder"]
  | "q1-output" => ["linear layer", "softmax"]
  | "q2-output" => ["probability distribution", "normalized scores"]
  | "q1-key" => ["self-attention", "residual connections", "layer normalization"]
  | "q2-key" => ["gradient flow", "training stability"]
  | "q1-training" =>
      ["masked language modeling", "next sentence prediction",
       "causal language modeling"]
  | "q2-training" => ["adam", "adamw"]
  | "q1-inference" =>
      ["exploring multiple possible outputs", "maintaining top k candidates"]
  | "q2-inference" => ["deterministic vs probabilistic", "diversity vs accuracy"]
  | _ => []

/-- Embedding of `ApiService.submitAnswer` (pure grading; the session id is unused by the
source body). -/
def apiSubmitAnswer (questionId answer : String) : AnswerResult :=
  let possibleAnswers := correctAnswers questionId
  let isCorrect := possibleAnswers.any (fun correct => includesCI answer correct)
  { correct := isCorrect
    feedback :=
      if isCorrect then "Correct! Well done."
      else "Not quite. Try again or review the content for hints."
    nextQuestion := none }

/-! ## `LearningContext.answerQuestion`

```ts
try {
  const result = await ApiService.submitAnswer(sessionId, questionId, answer);
  if (nodeProgress[nodeId]) {
    const updatedQuestions = nodeProgress[nodeId].questions.map(q =>
      q.id === questionId
        ? { ...q, status: result.correct ? 'passed' : 'failed',
            feedback: result.feedback, last_answer: answer,
            attempts: (q.attempts || 0) + 1 } : q);
    setNodeProgress({ ...nodeProgress, [nodeId]: { ...nodeProgress[nodeId],
      questions: updatedQuestions } });
  }
  return result.correct;
} catch (err) {
  setError(`Failed to submit answer: ...`);
  return false;
}
```
The awaited call's outcome is the explicit `call` parameter: `Except.ok` for a
grading result, `Except.error` for a thrown network error. -/

/-- The per-question overwrite performed on the matching question. -/
def gradedQuestion (q : Question) (result : AnswerResult) (answer : String) :
    Question :=
  { q with
    status := if result.correct then "passed" else "failed"
    feedback := some result.feedback
    last_answer := some answer
    attempts := q.attempts + 1 }

/-- Embedding of `answerQuestion`: new progress record, returned boolean, surfaced error. -/
def answerQuestion (p : Progress) (nodeId questionId answer : String)
    (call : Except String AnswerResult) : Progress × Bool × Option String :=
  match call with
  | Except.error e => (p, false, some ("Failed to submit answer: " ++ e))
  | Except.ok result =>
    match alookup p nodeId with
    | none => (p, result.correct, none)
    | some entry =>
      let updatedQuestions := entry.questions.map (fun q =>
        if q.id = questionId then gradedQuestion q result answer else q)
      (aset p nodeId { entry with questions := updatedQuestions },
        result.correct, none)

/-- Claim C6: If the grading call fails, `answerQuestion` leaves the progress
record — the question's recorded status, attempts, feedback, and the node's
whole entry — exactly as it was, returns `false`, and surfaces the error: the
awaited call precedes every mutation, and the catch branch only sets the
error message. -/
theorem answerQuestion_error_leaves_progress_unchanged (p : Progress)
    (nodeId questionId answer e : String) :
    answerQuestion p nodeId questionId answer (Except.error e) =
      (p, false, some ("Failed to submit answer: " ++ e)) := rfl

/-! ## `QuestionPanel.handleSubmitAnswer`

```ts
const nodeState = nodeProgress[nodeId];        // read at render time
...
const handleSubmitAnswer = async (questionId: string) => {
  if (!answers[questionId] || answers[questionId].trim() === '') { return; }
  try {
    await answerQuestion(nodeId, questionId, answers[questionId]);
    // Update completed status if all questions are passed
    const allPassed = nodeState?.questions?.every(q => q.status === 'passed');
    if (allPassed) { await updateNodeStatus(nodeId, 'completed'); }
  } ...
};
```
`nodeState` is the render-time value of `nodeProgress[nodeId]`, so the
`allPassed` check runs over the record as it was BEFORE this submission;
the embedding reads `p`, not the post-submission record, exactly as the
closure does. -/
/-- JavaScript `String.prototype.trim`. -/
def jsTrim (s : String) : String :=
  String.mk
    (((s.data.dropWhile Char.isWhitespace).reverse.dropWhile
        Char.isWhitespace).reverse)

def handleSubmitAnswer (p : Progress) (nodeId questionId answer : String)
    (call : Except String AnswerResult) (success : Bool) : Progress :=
  if jsTrim answer = "" then p
  else
    let afterAnswer := (answerQuestion p nodeId questionId answer call).1
    let allPassed :=
      match alookup p nodeId with
      | some e => e.questions.all (fun q => q.status = "passed")
      | none => false
    if allPassed then
      (updateNodeStatus afterAnswer nodeId Status.completed success).1
    else afterAnswer

/-- QuestionPanel scenario: node `root` is `in_progress`, its first question
`q1-root` is still unanswered and its second question `q2-root` has already
been passed. -/
def questionPanelProgress : Progress :=
  [("root",
    { status := Status.in_progress
      questions :=
        [{ id := "q1-root"
           text := "What paper introduced the transformer architecture?"
           status := "unanswered", attempts := 0 },
         { id := "q2-root"
           text :=
             "What problem does the transformer architecture solve compared to RNNs?"
           status := "passed", attempts := 1
           last_answer := some "parallelization"
           feedback := some "Correct! Well done." }]
      unlockable := true })]

/-- The state after submitting a passing answer to the last unanswered
question of `root` through `QuestionPanel.handleSubmitAnswer`. -/
def questionPanelAfter : Progress :=
  handleSubmitAnswer questionPanelProgress "root" "q1-root"
    "attention is all you need"
    (Except.ok (apiSubmitAnswer "q1-root" "attention is all you need")) true

/-- Claim C2 (bug): Submitting a passing answer to the last not-yet-passed
question of a node does NOT complete the node within the same submission:
`handleSubmitAnswer` computes `allPassed` from the render-time (stale)
`nodeState`, so even though the grading passed and afterwards every question
of `root` is `passed`, the node's status is still `in_progress` — contrary to
the comment above the check and to the same-operation completion performed by
the `lib/api` mock `submitAnswer`. -/
theorem handleSubmitAnswer_stale_completion_check :
    (apiSubmitAnswer "q1-root" "attention is all you need").correct = true
    ∧ (alookup questionPanelAfter "root").map
        (fun e => e.questions.all (fun q => q.status = "passed")) = some true
    ∧ (alookup questionPanelAfter "root").map ProgressEntry.status =
        some Status.in_progress := by
  refine ⟨by decide, ?_, ?_⟩ <;> decide

/-! ## `ApiService.generateQuestions` (mock question table)

`return questionsMap[nodeId] || [];` over a fixed per-node table; every
question starts `{ status: 'unanswered', attempts: 0 }`. -/

/-- The `questionsMap` table of `ApiService.generateQuestions`. -/
def qsFor (nodeId : String) : List Question :=
  match nodeId with
  | "root" =>
      [{ id := "q1-root"
         text := "What paper introduced the transformer architecture?"
         status := "unanswered", attempts := 0 },
       { id := "q2-root"
         text := "What problem does the transformer architecture solve compared to RNNs?"
         status := "unanswered", attempts := 0 }]
  | "input-processing" =>
      [{ id := "q1-input"
         text := "What are the three main steps in input processing for transformers?"
         status := "unanswered", attempts := 0 },
       { id := "q2-input"
         text := "Why is input processing important for transformers?"
         status := "unanswered", attempts := 0 }]
  | "tokenization" =>
      [{ id := "q1-tokenization"
         text := "What is tokenization in the context of transformers?"
         status := "unanswered", attempts := 0 },
       { id := "q2-tokenization"
         text := "Name three common subword tokenization methods."
         status := "unanswered", attempts := 0 }]
  | "embedding" =>
      [{ id := "q1-embedding"
         text := "What is the purpose of the embedding layer in transformers?"
         status := "unanswered", attempts := 0 },
       { id := "q2-embedding"
         text := "What is a typical embedding dimension used in transformer models?"
         status := "unanswered", attempts := 0 }]
  | "positional-encoding" =>
      [{ id := "q1-pos"
         text := "Why do transformers need positional encoding?"
         status := "unanswered", attempts := 0 },
       { id := "q2-pos"
         text := "How are sine and cosine functions used in positional encoding?"
         status := "unanswered", attempts := 0 }]
  | "encoder" =>
      [{ id := "q1-encoder"
         text := "What are the two main components of an encoder layer?"
         status := "unanswered", attempts := 0 },
       { id := "q2-encoder"
         text := "How many encoder layers are typically used in the original transformer?"
         status := "unanswered", attempts := 0 }]
  | "self-attention" =>
      [{ id := "q1-self-attention"
         text := "What are the three key components in self-attention?"
         status := "unanswered", attempts := 0 },
       { id := "q2-self-attention"
         text := "Why is it called \"multi-head\" attention?"
         status := "unanswered", attempts := 0 }]
  | "feed-forward" =>
      [{ id := "q1-ffn"
         text := "What is the structure of the feed-forward network in transformers?"
         status := "unanswered", attempts := 0 },
       { id := "q2-ffn"
         text := "Why is the feed-forward network applied \"position-wise\"?"
         status := "unanswered", attempts := 0 }]
  | "decoder" =>
      [{ id := "q1-decoder"
         text := "How does the decoder differ from the encoder in transformers?"
         status := "unanswered", attempts := 0 },
       { id := "q2-decoder"
         text := "What are the three main components of a decoder layer?"
         status := "unanswered", attempts := 0 }]
  | "masked-attention" =>
      [{ id := "q1-masked"
         text := "Why is masking used in the decoder self-attention?"
         status := "unanswered", attempts := 0 },
       { id := "q2-masked"
         text := "How is the masking implemented technically?"
         status := "unanswered", attempts := 0 }]
  | "cross-attention" =>
      [{ id := "q1-cross"
         text := "What is cross-attention and how does it differ from self-attention?"
         status := "unanswered", attempts := 0 },
       { id := "q2-cross"
         text := "Where do the Query, Key, and Value come from in cross-attention?"
         status := "unanswered", attempts := 0 }]
  | "output" =>
      [{ id := "q1-output"
         text := "What are the components of the output layer in transformers?"
         status := "unanswered", attempts := 0 },
       { id := "q2-output"
         text := "Why is softmax used in the output layer?"
         status := "unanswered", attempts := 0 }]
  | "key-mechanisms" =>
      [{ id := "q1-key"
         text := "What are the three key mechanisms that define transformer functionality?"
         status := "unanswered", attempts := 0 },
       { id := "q2-key"
         text := "Why are residual connections important in transformers?"
         status := "unanswered", attempts := 0 }]
  | "training" =>
      [{ id := "q1-training"
         text := "What are some common pretraining objectives for transformers?"
         status := "unanswered", attempts := 0 },
       { id := "q2-training"
         text := "What optimizer is typically used for training transformers?"
         status := "unanswered", attempts := 0 }]
  | "inference" =>
      [{ id := "q1-inference"
         text := "What is beam search in the context of transformer inference?"
         status := "unanswered", attempts := 0 },
       { id := "q2-inference"
         text := "Compare greedy decoding and sampling methods for generation."
         status := "unanswered", attempts := 0 }]
  | _ => []

theorem qsFor_ids_nodup (nodeId : String) :
    ((qsFor nodeId).map Question.id).Nodup := by
  unfold qsFor
  split <;> decide

/-! ## `LearningContext.generateQuestions`

```ts
const nodeData = nodes.find(n => n.id === nodeId);
if (!nodeData) { throw new Error(...); }          // caught: progress untouched
const updatedProgress = { ...nodeProgress,
  [nodeId]: { ...nodeProgress[nodeId] || {},
              status: 'in_progress' as const, unlockable: true } };
setNodeProgress(updatedProgress);
await ApiService.updateNodeStatus(sessionId, nodeId, 'in_progress');
const questions = await ApiService.generateQuestions(sessionId, nodeId);
const newProgress = { ...updatedProgress,
  [nodeId]: { ...updatedProgress[nodeId], questions: questions || [] } };
setNodeProgress(newProgress);
return questions;
```
The spread of the JS empty object `{}` is `jsEmptyEntry`; each of its fields
is overwritten before it is ever read. -/

/-- Placeholder for the JS `{}` fallback: every field of this entry is
overwritten (status and unlockable in the first write, questions in the
second) before the entry becomes observable. -/
def jsEmptyEntry : ProgressEntry :=
  { status := Status.locked, questions := [], unlockable := false }

/-- Embedding of `LearningContext.generateQuestions`, parameterised by the ids of the
nodes currently in the graph; returns the questions handed back to the
caller, or `none` on the unknown-node error path. -/
def generateQuestionsCtx (nodes : List String) (p : Progress)
    (nodeId : String) : Progress × Option (List Question) :=
  if nodeId ∈ nodes then
    let updated := aset p nodeId
      { ((alookup p nodeId).getD jsEmptyEntry) with
        status := Status.in_progress, unlockable := true }
    let questions := qsFor nodeId
    (aset updated nodeId
      { ((alookup updated nodeId).getD jsEmptyEntry) with
        questions := questions },
      some questions)
  else (p, none)

theorem generateQuestionsCtx_lookup (nodes : List String) (p : Progress)
    (nodeId : String) (h : nodeId ∈ nodes) :
    alookup (generateQuestionsCtx nodes p nodeId).1 nodeId =
      some { status := Status.in_progress, questions := qsFor nodeId
             unlockable := true } := by
  unfold generateQuestionsCtx
  simp only [h, if_pos]
  rw [alookup_aset_self, alookup_aset_self]
  cases alookup p nodeId <;> rfl

/-- Claim C8: Generating questions for the same node twice, with nothing in
between, leaves the node's progress entry exactly as after the first
generation (the deterministic question table is re-written unchanged): the
question list does not shrink, every recorded `attempts` value is kept, and
the ids in the list are pairwise distinct. -/
theorem generateQuestions_twice_stable (nodes : List String) (p : Progress)
    (nodeId : String) (h : nodeId ∈ nodes) :
    alookup (generateQuestionsCtx nodes
        (generateQuestionsCtx nodes p nodeId).1 nodeId).1 nodeId =
      alookup (generateQuestionsCtx nodes p nodeId).1 nodeId
    ∧ alookup (generateQuestionsCtx nodes p nodeId).1 nodeId =
        some { status := Status.in_progress, questions := qsFor nodeId
               unlockable := true }
    ∧ ((qsFor nodeId).map Question.id).Nodup := by
  refine ⟨?_, generateQuestionsCtx_lookup nodes p nodeId h,
    qsFor_ids_nodup nodeId⟩
  rw [generateQuestionsCtx_lookup nodes _ nodeId h,
    generateQuestionsCtx_lookup nodes p nodeId h]

/-- Witness for C8 on the shipped transformer mind map's root node. -/
theorem generateQuestions_twice_stable_witness :
    alookup (generateQuestionsCtx ["root", "encoder"]
        (generateQuestionsCtx ["root", "encoder"] [] "root").1 "root").1
        "root" =
      alookup (generateQuestionsCtx ["root", "encoder"] [] "root").1 "root"
    ∧ alookup (generateQuestionsCtx ["root", "encoder"] [] "root").1 "root" =
        some { status := Status.in_progress, questions := qsFor "root"
               unlockable := true }
    ∧ ((qsFor "root").map Question.id).Nodup :=
  generateQuestions_twice_stable ["root", "encoder"] [] "root"
    (by decide)

/-! ## `LearningContext.setMindMap`

```ts
const initialProgress: Record<string, NodeProgressData> = {};
newNodes.forEach(node => {
  initialProgress[node.id] = {
    status: node.id === newNodes[0]?.id ? 'not_started' : 'locked',
    questions: [],
    unlockable: node.id === newNodes[0]?.id };
});
setNodeProgress(initialProgress);
```
-/

/-- The entry `setMindMap` writes for a node, given `newNodes[0]?.id`. -/
def initialEntry (first : Option String) (nodeId : String) : ProgressEntry :=
  { status :=
      if first = some nodeId then Status.not_started else Status.locked
    questions := []
    unlockable := decide (first = some nodeId) }

/-- The progress record built by `setMindMap` for a node list (nodes are
represented by their ids; the edge list is not consulted by the source). -/
def setMindMapProgress (newNodes : List String) : Progress :=
  newNodes.map (fun nodeId => (nodeId, initialEntry newNodes.head? nodeId))

/-- Whether a node has at least one incoming edge. -/
def hasIncomingEdge (edges : List EdgeData) (nodeId : String) : Bool :=
  edges.any (fun e => e.target = nodeId)

/-- Claim C3 counterexample: For the node list `["B", "A"]` with the single
edge `A → B`, initialization marks `B` — which has an incoming edge —
`not_started` and unlockable, and marks `A` — which has zero incoming
edges — `locked` and not unlockable: the claimed in-degree rule fails as
soon as the unique root is not the first element of the node list. -/
theorem setMindMap_ignores_in_degree :
    (alookup (setMindMapProgress ["B", "A"]) "B").map ProgressEntry.status =
        some Status.not_started
    ∧ hasIncomingEdge [{ id := "e1", source := "A", target := "B" }] "B" = true
    ∧ (alookup (setMindMapProgress ["B", "A"]) "A").map ProgressEntry.status =
        some Status.locked
    ∧ (alookup (setMindMapProgress ["B", "A"]) "A").map
        ProgressEntry.unlockable = some false
    ∧ hasIncomingEdge [{ id := "e1", source := "A", target := "B" }] "A" =
        false := by
  decide

theorem setMindMapProgress_map_lookup (l : List String) (first : Option String)
    (n : String) (h : n ∈ l) :
    alookup (l.map (fun nodeId => (nodeId, initialEntry first nodeId))) n =
      some (initialEntry first n) := by
  induction l with
  | nil => cases h
  | cons hd tl ih =>
      by_cases hn : hd = n
      · subst hn; simp [alookup]
      · cases h with
        | head => exact absurd rfl hn
        | tail _ h2 => simp [alookup, hn, ih h2]

/-- Claim C3 amended: At `setMindMap` initialization every node of the list
gets the entry determined solely by whether its id equals the id of the
FIRST node of the list — `not_started`/unlockable for the first node's id,
`locked`/not unlockable for every other id — independently of the edge list
and hence of in-degrees. -/
theorem setMindMap_first_node_progress (newNodes : List String) (n : String)
    (h : n ∈ newNodes) :
    alookup (setMindMapProgress newNodes) n =
      some (initialEntry newNodes.head? n) :=
  setMindMapProgress_map_lookup newNodes newNodes.head? n h

/-- Witness for the amended C3 on the counterexample's node list. -/
theorem setMindMap_first_node_progress_witness :
    alookup (setMindMapProgress ["B", "A"]) "A" =
      some (initialEntry (some "B") "A") :=
  setMindMap_first_node_progress ["B", "A"] "A" (by decide)

/-! ## React-Flow node objects (`mindmap.tsx` variants)

`{ id, data: { label, content, status, isParent? }, position }`; only the
fields that flow into the click and focus logic are carried. Statuses are
the raw strings these components compare against. -/

structure FNode where
  id : String
  label : String
  content : String
  status : String
  isParent : Bool := false
  position : Int × Int
deriving DecidableEq, Repr

/-- JavaScript `nodes.find(n => n.id === nodeId)`. -/
def findNode (nodes : List FNode) (nodeId : String) : Option FNode :=
  match nodes with
  | [] => none
  | n :: rest => if n.id = nodeId then some n else findNode rest nodeId

/-! ## `mindmap.tsx` `handleNodeClick` — status effect

```ts
if (node.data && node.data.status === 'locked') { return; }
...
if (node.data.status !== 'completed' && node.data.status !== 'in_progress') {
  await updateNodeStatus(sessionId, nodeId, 'in_progress');
  setFullNodes(prev => prev.map(n => n.id === nodeId
    ? { ...n, data: { ...n.data, status: 'in_progress' } } : n));
  setNodes(...);   // same map on the visible list
}
```
-/
def handleNodeClickStatus (nodes : List FNode) (clicked : FNode) :
    List FNode :=
  if clicked.status = "locked" then nodes
  else if clicked.status ≠ "completed" ∧ clicked.status ≠ "in_progress" then
    nodes.map (fun n =>
      if n.id = clicked.id then { n with status := "in_progress" } else n)
  else nodes

theorem findNode_click_map_other (nodes : List FNode) (cid m : String)
    (h : m ≠ cid) :
    findNode (nodes.map (fun n =>
        if n.id = cid then { n with status := "in_progress" } else n)) m =
      findNode nodes m := by
  induction nodes with
  | nil => rfl
  | cons hd tl ih =>
      by_cases hc : hd.id = cid
      · have hm : ¬hd.id = m := by rw [hc]; exact fun e => h e.symm
        simp [findNode, hc, hm, h, Ne.symm h, ih]
      · by_cases hm : hd.id = m
        · simp [findNode, hc, hm, h, Ne.symm h]
        · simp [findNode, hc, hm, ih]

/-- Claim C5 counterexample: A question generation on an already-completed node
is part of the claim's "normal operation", and
`LearningContext.generateQuestions` unconditionally writes
`status: 'in_progress'` before fetching questions — so a completed node is
regressed to `in_progress` (reachable in the shipped UI: `getProgress`
reports `root` completed with an empty question list, and opening the
question panel then regenerates). -/
theorem generateQuestions_regresses_completed :
    (alookup (generateQuestionsCtx ["root"]
        [("root", { status := Status.completed, questions := []
                    unlockable := true })] "root").1 "root").map
      ProgressEntry.status = some Status.in_progress := by
  decide

/-- Claim C5 amended: Monotonicity of `completed` holds for node clicks and
answer submissions: `handleNodeClick` refuses to downgrade a node whose
status is `completed` (its guard) and `answerQuestion` only rewrites the
question list, never the node status.  (It does NOT hold for question
generations or arbitrary status updates, which overwrite the status
unconditionally — see the counterexample.) -/
theorem clicks_and_answers_preserve_completed (nodes : List FNode)
    (clicked : FNode) (m : String) (p : Progress)
    (nodeId questionId answer : String) (call : Except String AnswerResult)
    (hm : (findNode nodes m).map FNode.status = some "completed")
    (hc : (findNode nodes clicked.id).map FNode.status = some clicked.status)
    (hp : (alookup p m).map ProgressEntry.status = some Status.completed) :
    (findNode (handleNodeClickStatus nodes clicked) m).map FNode.status =
        some "completed"
    ∧ (alookup (answerQuestion p nodeId questionId answer call).1 m).map
        ProgressEntry.status = some Status.completed := by
  constructor
  · unfold handleNodeClickStatus
    by_cases hl : clicked.status = "locked"
    · rw [if_pos hl]; exact hm
    · rw [if_neg hl]
      by_cases hg : clicked.status ≠ "completed" ∧ clicked.status ≠ "in_progress"
      · rw [if_pos hg]
        by_cases hcm : m = clicked.id
        · rw [hcm] at hm
          exact absurd (Option.some.inj (hm.symm.trans hc)).symm hg.1
        · rw [findNode_click_map_other nodes clicked.id m hcm]
          exact hm
      · rw [if_neg hg]; exact hm
  · unfold answerQuestion
    cases call with
    | error e => simpa using hp
    | ok result =>
        cases hpn : alookup p nodeId with
        | none => simpa using hp
        | some entry =>
            simp only
            by_cases hnm : nodeId = m
            · subst hnm
              rw [alookup_aset_self]
              rw [hpn] at hp
              simpa using hp
            · rw [alookup_aset_other p nodeId m _ hnm]
              exact hp

/-- Witness for the amended C5: clicking the completed root and submitting an
answer for it leave it completed. -/
theorem clicks_and_answers_preserve_completed_witness :
    (findNode (handleNodeClickStatus
        [{ id := "root", label := "Transformer Architecture", content := ""
           status := "completed", position := (0, 0) }]
        { id := "root", label := "Transformer Architecture", content := ""
          status := "completed", position := (0, 0) }) "root").map
      FNode.status = some "completed"
    ∧ (alookup (answerQuestion
        [("root", { status := Status.completed, questions := []
                    unlockable := true })] "root" "q1-root" "some answer"
        (Except.ok { correct := true, feedback := "ok"
                     nextQuestion := none })).1 "root").map
        ProgressEntry.status = some Status.completed :=
  clicks_and_answers_preserve_completed
    [{ id := "root", label := "Transformer Architecture", content := ""
       status := "completed", position := (0, 0) }]
    { id := "root", label := "Transformer Architecture", content := ""
      status := "completed", position := (0, 0) }
    "root"
    [("root", { status := Status.completed, questions := []
                unlockable := true })]
    "root" "q1-root" "some answer"
    (Except.ok { correct := true, feedback := "ok", nextQuestion := none })
    (by decide) (by decide) (by decide)

/-! ## `lib/api` offline mock — `submitAnswer`

```ts
const passed = answer.length >= 5;
if (mockSessionData[sessionId]?.nodes[nodeId]?.questions) {
  const questions = mockSessionData[sessionId].nodes[nodeId].questions;
  const questionIndex = questions.findIndex(q => q.id === questionId);
  if (questionIndex !== -1) { ...overwrite that question... }
  const all_passed = questions.every(q => q.status === 'passed');
  if (all_passed) {
    mockSessionData[sessionId].nodes[nodeId].status = 'completed';
    const childNodeIds = mockSessionData[sessionId].edges
      .filter(edge => edge.source === nodeId).map(edge => edge.target);
    childNodeIds.forEach(childId => {
      if (mockSessionData[sessionId].nodes[childId]) {
        mockSessionData[sessionId].nodes[childId].status = 'not_started'; } });
  }
  return mockSuccess({ passed, feedback, grade, all_passed });
}
return mockSuccess({ passed: true, feedback: 'Mock answer accepted', grade: 1,
                     all_passed: true });
```
Per-session state is a node map plus the edge list; each question list is
initialised to an array at `initializeSession`, so the guard is node
presence. -/

/-- One node's slice of `mockSessionData[sessionId].nodes`. -/
structure MockNode where
  status : String
  questions : List Question
deriving DecidableEq, Repr

/-- One session's slice of `mockSessionData`. -/
structure MockSession where
  nodes : List (String × MockNode)
  edges : List EdgeData
deriving DecidableEq, Repr

/-- The `{ passed, feedback, grade, all_passed }` response object. -/
structure MockAnswerResponse where
  passed : Bool
  feedback : String
  grade : Nat
  all_passed : Bool
deriving DecidableEq, Repr

/-- Update in `findIndex` style: overwrite the FIRST question whose id matches,
leave the list unchanged when there is no match. -/
def updateFirstQuestion (qs : List Question) (questionId : String)
    (f : Question → Question) : List Question :=
  match qs with
  | [] => []
  | q :: rest =>
      if q.id = questionId then f q :: rest
      else q :: updateFirstQuestion rest questionId f

/-- The overwrite applied to the matched question. -/
def mockGradedList (qs : List Question) (questionId answer : String)
    (passed : Bool) : List Question :=
  updateFirstQuestion qs questionId (fun q =>
    { q with
      status := if passed then "passed" else "failed"
      feedback := some (if passed then "Great answer!"
        else "Your answer needs more detail. Please try again.")
      grade := some (if passed then 1 else 0)
      attempts := q.attempts + 1
      last_answer := some answer })

/-- The `childNodeIds.forEach` loop: set every present child to
`not_started`. -/
def unlockChildren (nodes : List (String × MockNode))
    (childIds : List String) : List (String × MockNode) :=
  childIds.foldl (fun ns c =>
    match alookup ns c with
    | some cst => aset ns c { cst with status := "not_started" }
    | none => ns) nodes

/-- The `passed ? ... : ...` feedback string. -/
def mockFeedback (passed : Bool) : String :=
  if passed then "Great answer!"
  else "Your answer needs more detail. Please try again."

/-- Embedding of the `lib/api` mock `submitAnswer` (`passed = answer.length >= 5`). -/
def mockSubmitAnswer (s : MockSession) (nodeId questionId answer : String) :
    MockSession × MockAnswerResponse :=
  match alookup s.nodes nodeId with
  | none =>
      (s, { passed := true, feedback := "Mock answer accepted", grade := 1
            all_passed := true })
  | some st =>
      if (mockGradedList st.questions questionId answer
            (decide (5 ≤ answer.length))).all
          (fun q => q.status = "passed") = true then
        ({ nodes := unlockChildren
              (aset s.nodes nodeId
                { st with
                  questions := mockGradedList st.questions questionId answer
                    (decide (5 ≤ answer.length))
                  status := "completed" })
              ((s.edges.filter (fun e => e.source = nodeId)).map
                (fun e => e.target))
           edges := s.edges },
         { passed := decide (5 ≤ answer.length)
           feedback := mockFeedback (decide (5 ≤ answer.length))
           grade := if decide (5 ≤ answer.length) then 1 else 0
           all_passed := true })
      else
        ({ nodes := aset s.nodes nodeId
             { st with
               questions := mockGradedList st.questions questionId answer
                 (decide (5 ≤ answer.length)) }
           edges := s.edges },
         { passed := decide (5 ≤ answer.length)
           feedback := mockFeedback (decide (5 ≤ answer.length))
           grade := if decide (5 ≤ answer.length) then 1 else 0
           all_passed := false })

theorem mockSubmitAnswer_found_pass (s : MockSession)
    (nodeId questionId answer : String) (st : MockNode)
    (hn : alookup s.nodes nodeId = some st)
    (hq : (mockGradedList st.questions questionId answer
        (decide (5 ≤ answer.length))).all
        (fun q => q.status = "passed") = true) :
    mockSubmitAnswer s nodeId questionId answer =
      ({ nodes := unlockChildren
            (aset s.nodes nodeId
              { st with
                questions := mockGradedList st.questions questionId answer
                  (decide (5 ≤ answer.length))
                status := "completed" })
            ((s.edges.filter (fun e => e.source = nodeId)).map
              (fun e => e.target))
         edges := s.edges },
       { passed := decide (5 ≤ answer.length)
         feedback := mockFeedback (decide (5 ≤ answer.length))
         grade := if decide (5 ≤ answer.length) then 1 else 0
         all_passed := true }) := by
  unfold mockSubmitAnswer
  rw [hn]
  exact if_pos hq

theorem mockSubmitAnswer_found_fail (s : MockSession)
    (nodeId questionId answer : String) (st : MockNode)
    (hn : alookup s.nodes nodeId = some st)
    (hq : ¬((mockGradedList st.questions questionId answer
        (decide (5 ≤ answer.length))).all
        (fun q => q.status = "passed") = true)) :
    mockSubmitAnswer s nodeId questionId answer =
      ({ nodes := aset s.nodes nodeId
           { st with
             questions := mockGradedList st.questions questionId answer
               (decide (5 ≤ answer.length)) }
         edges := s.edges },
       { passed := decide (5 ≤ answer.length)
         feedback := mockFeedback (decide (5 ≤ answer.length))
         grade := if decide (5 ≤ answer.length) then 1 else 0
         all_passed := false }) := by
  unfold mockSubmitAnswer
  rw [hn]
  exact if_neg hq

theorem unlockChildren_not_mem (cs : List String)
    (ns : List (String × MockNode)) (c : String) (h : c ∉ cs) :
    alookup (unlockChildren ns cs) c = alookup ns c := by
  induction cs generalizing ns with
  | nil => rfl
  | cons c0 rest ih =>
      have hc0 : c ≠ c0 := fun e => h (e ▸ List.mem_cons_self c0 rest)
      have hrest : c ∉ rest := fun e => h (List.mem_cons_of_mem c0 e)
      show alookup (unlockChildren (match alookup ns c0 with
        | some cst => aset ns c0 { cst with status := "not_started" }
        | none => ns) rest) c = alookup ns c
      cases hn : alookup ns c0 with
      | none => rw [ih _ hrest]
      | some cst =>
          rw [ih _ hrest, alookup_aset_other ns c0 c _ (fun e => hc0 e.symm)]

theorem unlockChildren_isSome (cs : List String)
    (ns : List (String × MockNode)) (c : String)
    (h : alookup ns c ≠ none) : alookup (unlockChildren ns cs) c ≠ none := by
  induction cs generalizing ns with
  | nil => exact h
  | cons c0 rest ih =>
      show alookup (unlockChildren (match alookup ns c0 with
        | some cst => aset ns c0 { cst with status := "not_started" }
        | none => ns) rest) c ≠ none
      cases hn : alookup ns c0 with
      | none => exact ih ns h
      | some cst =>
          refine ih _ ?_
          by_cases hc : c0 = c
          · rw [← hc, alookup_aset_self]; simp
          · rw [alookup_aset_other ns c0 c _ hc]; exact h

theorem unlockChildren_mem (cs : List String)
    (ns : List (String × MockNode)) (c : String) (hmem : c ∈ cs)
    (hsome : alookup ns c ≠ none) :
    (alookup (unlockChildren ns cs) c).map MockNode.status =
      some "not_started" := by
  induction cs generalizing ns with
  | nil => cases hmem
  | cons c0 rest ih =>
      show (alookup (unlockChildren (match alookup ns c0 with
        | some cst => aset ns c0 { cst with status := "not_started" }
        | none => ns) rest) c).map MockNode.status = some "not_started"
      by_cases hr : c ∈ rest
      · cases hn : alookup ns c0 with
        | none => exact ih _ hr hsome
        | some cst =>
            refine ih _ hr ?_
            by_cases hc : c0 = c
            · rw [← hc, alookup_aset_self]; simp
            · rw [alookup_aset_other ns c0 c _ hc]; exact hsome
      · have hc0 : c = c0 := by
          cases hmem with
          | head => rfl
          | tail _ h2 => exact absurd h2 hr
        subst hc0
        cases hn : alookup ns c with
        | none => exact absurd hn hsome
        | some cst =>
            rw [unlockChildren_not_mem rest _ c hr, alookup_aset_self]
            rfl

/-- The diamond prerequisite graph `A→B, A→C, B→D, C→D` in the mock
session store: `B` is in progress with one ungraded question, `C` is not
completed, `D` is locked behind both `B` and `C`. -/
def diamondSession : MockSession :=
  { nodes :=
      [("A", { status := "completed", questions := [] }),
       ("B", { status := "in_progress"
               questions := [{ id := "qB", text := "Explain B."
                               status := "not_started", attempts := 0 }] }),
       ("C", { status := "not_started", questions := [] }),
       ("D", { status := "locked", questions := [] })]
    edges :=
      [{ id := "e1", source := "A", target := "B" },
       { id := "e2", source := "A", target := "C" },
       { id := "e3", source := "B", target := "D" },
       { id := "e4", source := "C", target := "D" }] }

/-- Claim C1 counterexample: Completing `B` alone (a passing answer to its only
question) promotes `D` to `not_started` even though `D`'s other parent `C`
is not completed: the unlock is an any-one-parent promotion, not the claimed
AND-gate, so `D` does not "remain locked". -/
theorem mockSubmitAnswer_diamond_ignores_second_parent :
    (alookup (mockSubmitAnswer diamondSession "B" "qB"
        "a thorough answer").1.nodes "D").map MockNode.status =
      some "not_started"
    ∧ (alookup (mockSubmitAnswer diamondSession "B" "qB"
        "a thorough answer").1.nodes "C").map MockNode.status =
      some "not_started"
    ∧ { id := "e4", source := "C", target := "D" } ∈ diamondSession.edges := by
  refine ⟨?_, ?_, ?_⟩ <;> decide

/-- Claim C1 amended: Whenever a submission leaves every question of a node
passed (`all_passed`), the mock backend marks the node `completed` and
unconditionally sets EVERY direct child present in the session to
`not_started` — it never consults the child's other parents, so a child with
another non-completed parent is promoted out of `locked` instead of staying
locked. -/
theorem mockSubmitAnswer_unlocks_children_unconditionally (s : MockSession)
    (nodeId questionId answer : String) (e : EdgeData)
    (hnode : alookup s.nodes nodeId ≠ none)
    (hall : (mockSubmitAnswer s nodeId questionId answer).2.all_passed = true)
    (he : e ∈ s.edges) (hsrc : e.source = nodeId)
    (hchild : alookup s.nodes e.target ≠ none) :
    (alookup (mockSubmitAnswer s nodeId questionId answer).1.nodes
        e.target).map MockNode.status = some "not_started" := by
  cases hn : alookup s.nodes nodeId with
  | none => exact absurd hn hnode
  | some st =>
      by_cases hq : (mockGradedList st.questions questionId answer
          (decide (5 ≤ answer.length))).all
          (fun q => q.status = "passed") = true
      · rw [mockSubmitAnswer_found_pass s nodeId questionId answer st hn hq]
        refine unlockChildren_mem _ _ _ ?_ ?_
        · refine List.mem_map_of_mem (fun ed : EdgeData => ed.target) ?_
          refine List.mem_filter.mpr ⟨he, ?_⟩
          exact decide_eq_true hsrc
        · by_cases hc : nodeId = e.target
          · rw [← hc, alookup_aset_self]; simp
          · rw [alookup_aset_other s.nodes nodeId e.target _ hc]
            exact hchild
      · rw [mockSubmitAnswer_found_fail s nodeId questionId answer st hn hq]
          at hall
        simp at hall

/-- Witness for the amended C1 on the diamond graph, with the edge
`B → D`. -/
theorem mockSubmitAnswer_unlocks_children_witness :
    (alookup (mockSubmitAnswer diamondSession "B" "qB"
        "a thorough answer").1.nodes "D").map MockNode.status =
      some "not_started" :=
  mockSubmitAnswer_unlocks_children_unconditionally diamondSession "B" "qB"
    "a thorough answer" { id := "e3", source := "B", target := "D" }
    (by decide) (by decide) (by decide) (by decide) (by decide)

/-! ## `focusOnNode` — visible-set and layout engine

From the `PathNavigator` variant of `mindmap.tsx` (the richest of the two
focus engines; the other variant shares the same early-return guard):

```ts
const focusOnNode = useCallback((nodeId: string) => {
  if (!nodeId || !fullNodes.length || !fullEdges.length) {
    console.warn(...); return;              // previous visible set kept
  }
  const directChildren = fullEdges.filter(e => e.source === nodeId)
                                  .map(e => e.target);
  const parentEdge = fullEdges.find(e => e.target === nodeId);
  const parentId = parentEdge?.source;
  const visibleNodes = fullNodes.filter(node => node.id === nodeId ||
      directChildren.includes(node.id) || (parentId && node.id === parentId));
  const visibleEdges = fullEdges.filter(e => e.source === nodeId ||
      (parentId && e.source === parentId && e.target === nodeId));
  ... status refresh, then child positions by count (1 / 2-3 / 4-6 / 7+),
  focus at the origin, parent at (0, -200) ...
});
```
-/

/-- Row index (top-row marker sized by `Math.ceil(n/2)`): the row index a child at position
`i` lands in (`0`/`1` for the two-row 4–6 layout, `Math.floor(i/3)` for the
grid layout). -/
def rowIdx (n i : Nat) : Nat :=
  if n ≤ 6 then (if i < (n + 1) / 2 then 0 else 1) else i / 3

/-- Number of children placed in `row` of the 7+ grid layout:
`(row === numRows - 1 && n % maxPerRow !== 0) ? n % maxPerRow : maxPerRow`
with `maxPerRow = 3` and `numRows = Math.ceil(n / maxPerRow)`. -/
def nodesInRow (n row : Nat) : Nat :=
  if row = (n + 3 - 1) / 3 - 1 ∧ n % 3 ≠ 0 then n % 3 else 3

/-- Position of the `i`-th of `n` direct children, mirroring the four layout
branches (single child below; 2–3 in one row of width 300; 4–6 in two rows
of column spacing 320; 7+ in a grid of at most 3 per row). -/
def childPosition (n i : Nat) : Int × Int :=
  if n = 1 then (0, 300)
  else if n ≤ 3 then
    (-(((n : Int) - 1) * 300) / 2 + (i : Int) * 300, 250)
  else if n ≤ 6 then
    if i < (n + 1) / 2 then
      (-((((n + 1) / 2 : Nat) : Int) - 1) * 320 / 2 + (i : Int) * 320, 230)
    else
      (-(((n / 2 : Nat) : Int) - 1) * 320 / 2
         + ((i : Int) - (((n + 1) / 2 : Nat) : Int)) * 320,
       230 + 250)
  else
    (-(((nodesInRow n (i / 3) : Int) - 1) * 320) / 2
       + ((i % 3 : Nat) : Int) * 320,
     230 + ((i / 3 : Nat) : Int) * 250)

/-- JavaScript `fullEdges.filter(e => e.source === nodeId).map(e => e.target)`. -/
def directChildrenOf (fullEdges : List EdgeData) (nodeId : String) :
    List String :=
  (fullEdges.filter (fun e => e.source = nodeId)).map (fun e => e.target)

/-- JavaScript `fullEdges.find(e => e.target === nodeId)?.source`. -/
def parentIdOf (fullEdges : List EdgeData) (nodeId : String) : Option String :=
  (fullEdges.find? (fun e => decide (e.target = nodeId))).map
    (fun e => e.source)

/-- The visible node subset: focus, direct children, parent. -/
def visibleNodesOf (fullNodes : List FNode) (fullEdges : List EdgeData)
    (nodeId : String) : List FNode :=
  fullNodes.filter (fun nd =>
    nd.id = nodeId ∨ nd.id ∈ directChildrenOf fullEdges nodeId
      ∨ parentIdOf fullEdges nodeId = some nd.id)

/-- The visible edge subset: edges out of the focus, plus the parent edge. -/
def visibleEdgesOf (fullEdges : List EdgeData) (nodeId : String) :
    List EdgeData :=
  fullEdges.filter (fun e =>
    e.source = nodeId
      ∨ (parentIdOf fullEdges nodeId = some e.source ∧ e.target = nodeId))

/-- The per-node status refresh of `updatedVisibleNodes`: a locked direct
child is promoted to `not_started` when the FOCUSED node is completed
(no other parent is consulted); otherwise the parent node is tagged. -/
def statusRefresh (fullNodes : List FNode) (fullEdges : List EdgeData)
    (nodeId : String) (nd : FNode) : FNode :=
  if (nd.id ≠ nodeId ∧ nd.id ∈ directChildrenOf fullEdges nodeId
        ∧ nd.status = "locked")
      ∧ (findNode fullNodes nodeId).map FNode.status = some "completed" then
    { nd with status := "not_started" }
  else if parentIdOf fullEdges nodeId = some nd.id then
    { nd with isParent := true }
  else nd

/-- The `childPositions` record: `forEach` with index, later assignments for
a duplicated child id overwriting earlier ones. -/
def childPositionsOf (children : List String) :
    List (String × (Int × Int)) :=
  children.enum.foldl
    (fun m p => aset m p.2 (childPosition children.length p.1)) []

/-- The final positioning map: focus at the origin, children at their
computed slots, parent at `(0, -200)`. -/
def placeNode (fullEdges : List EdgeData) (nodeId : String) (nd : FNode) :
    FNode :=
  if nd.id = nodeId then { nd with position := (0, 0) }
  else if nd.id ∈ directChildrenOf fullEdges nodeId then
    { nd with position :=
        (alookup (childPositionsOf (directChildrenOf fullEdges nodeId))
          nd.id).getD nd.position }
  else if parentIdOf fullEdges nodeId = some nd.id then
    { nd with position := (0, -200), isParent := true }
  else nd

/-- Embedding of `focusOnNode`: takes the full graph, the currently visible set, and the
focus id; returns the new visible nodes and edges (the current ones when the
early-return guard fires). -/
def focusOnNode (fullNodes : List FNode) (fullEdges : List EdgeData)
    (curNodes : List FNode) (curEdges : List EdgeData) (nodeId : String) :
    List FNode × List EdgeData :=
  if nodeId = "" ∨ fullNodes = [] ∨ fullEdges = [] then (curNodes, curEdges)
  else if (findNode ((visibleNodesOf fullNodes fullEdges nodeId).map
      (statusRefresh fullNodes fullEdges nodeId)) nodeId).isSome then
    (((visibleNodesOf fullNodes fullEdges nodeId).map
        (statusRefresh fullNodes fullEdges nodeId)).map
      (placeNode fullEdges nodeId),
     visibleEdgesOf fullEdges nodeId)
  else
    ((visibleNodesOf fullNodes fullEdges nodeId).map
      (statusRefresh fullNodes fullEdges nodeId),
     visibleEdgesOf fullEdges nodeId)

/-- Claim C9 counterexample: With a non-empty previously visible set, calling
the focus computation with the empty focus id returns that previous set
unchanged — not an empty visible set: the guard is an early-return no-op. -/
theorem focusOnNode_empty_id_not_empty_set :
    focusOnNode
        [{ id := "root", label := "Transformer Architecture", content := ""
           status := "in_progress", position := (0, 0) }]
        [{ id := "e1", source := "root", target := "encoder" }]
        [{ id := "root", label := "Transformer Architecture", content := ""
           status := "in_progress", position := (0, 0) }]
        [{ id := "e1", source := "root", target := "encoder" }] "" =
      ([{ id := "root", label := "Transformer Architecture", content := ""
          status := "in_progress", position := (0, 0) }],
       [{ id := "e1", source := "root", target := "encoder" }])
    ∧ ([{ id := "root", label := "Transformer Architecture", content := ""
          status := "in_progress", position := (0, 0) }] : List FNode) ≠
        [] := by
  constructor
  · rfl
  · decide

/-- Claim C9 amended: An empty focus node id makes `focusOnNode` hit the
`!nodeId` early-return guard: the previously visible nodes and edges are
returned unchanged (a no-op), rather than an empty visible set. -/
theorem focusOnNode_empty_id_noop (fullNodes : List FNode)
    (fullEdges : List EdgeData) (curNodes : List FNode)
    (curEdges : List EdgeData) :
    focusOnNode fullNodes fullEdges curNodes curEdges "" =
      (curNodes, curEdges) := by
  unfold focusOnNode
  rw [if_pos (Or.inl rfl)]

theorem findNode_eq_some (l : List FNode) (k : String) (x : FNode)
    (h : findNode l k = some x) : x.id = k ∧ x ∈ l := by
  induction l with
  | nil => cases h
  | cons hd tl ih =>
      unfold findNode at h
      by_cases hh : hd.id = k
      · rw [if_pos hh] at h
        obtain rfl := Option.some.inj h
        exact ⟨hh, List.mem_cons_self _ _⟩
      · rw [if_neg hh] at h
        obtain ⟨hid, hmem⟩ := ih h
        exact ⟨hid, List.mem_cons_of_mem _ hmem⟩

theorem findNode_isSome_of_mem (l : List FNode) (k : String) (x : FNode)
    (hmem : x ∈ l) (hid : x.id = k) : (findNode l k).isSome = true := by
  induction l with
  | nil => cases hmem
  | cons hd tl ih =>
      unfold findNode
      by_cases hh : hd.id = k
      · rw [if_pos hh]; rfl
      · rw [if_neg hh]
        cases hmem with
        | head => exact absurd hid hh
        | tail _ h2 => exact ih h2

theorem statusRefresh_id (fullNodes : List FNode) (fullEdges : List EdgeData)
    (nodeId : String) (nd : FNode) :
    (statusRefresh fullNodes fullEdges nodeId nd).id = nd.id := by
  unfold statusRefresh
  split
  · rfl
  · split <;> rfl

theorem placeNode_id (fullEdges : List EdgeData) (nodeId : String)
    (nd : FNode) : (placeNode fullEdges nodeId nd).id = nd.id := by
  unfold placeNode
  split
  · rfl
  · split
    · rfl
    · split <;> rfl

theorem placeNode_focus (fullEdges : List EdgeData) (nodeId : String)
    (nd : FNode) (h : nd.id = nodeId) :
    placeNode fullEdges nodeId nd = { nd with position := (0, 0) } := by
  unfold placeNode
  rw [if_pos h]

theorem focusOnNode_focus_at_origin (fullNodes : List FNode)
    (fullEdges : List EdgeData) (curNodes : List FNode)
    (curEdges : List EdgeData) (nodeId : String)
    (h1 : nodeId ≠ "") (h2 : fullNodes ≠ []) (h3 : fullEdges ≠ [])
    (h4 : (findNode fullNodes nodeId).isSome = true) :
    ∀ nd ∈ (focusOnNode fullNodes fullEdges curNodes curEdges nodeId).1,
      nd.id = nodeId → nd.position = (0, 0) := by
  intro nd hnd hid
  have hguard : ¬(nodeId = "" ∨ fullNodes = [] ∨ fullEdges = []) := by
    push_neg
    exact ⟨h1, h2, h3⟩
  obtain ⟨x, hx⟩ := Option.isSome_iff_exists.mp h4
  obtain ⟨hxid, hxmem⟩ := findNode_eq_some fullNodes nodeId x hx
  have hxvis : x ∈ visibleNodesOf fullNodes fullEdges nodeId := by
    refine List.mem_filter.mpr ⟨hxmem, ?_⟩
    exact decide_eq_true (Or.inl hxid)
  have hfind : (findNode ((visibleNodesOf fullNodes fullEdges nodeId).map
      (statusRefresh fullNodes fullEdges nodeId)) nodeId).isSome = true := by
    refine findNode_isSome_of_mem _ _
      (statusRefresh fullNodes fullEdges nodeId x)
      (List.mem_map_of_mem _ hxvis) ?_
    rw [statusRefresh_id]
    exact hxid
  unfold focusOnNode at hnd
  rw [if_neg hguard, if_pos hfind] at hnd
  rcases List.mem_map.mp hnd with ⟨y, hy, rfl⟩
  have hyid : y.id = nodeId := by
    rw [← placeNode_id fullEdges nodeId y]
    exact hid
  rw [placeNode_focus fullEdges nodeId y hyid]

theorem childPosition_small_spacing (n i : Nat) (h2 : 2 ≤ n) (h3 : n ≤ 3)
    (hi : i + 1 < n) :
    (childPosition n (i + 1)).1 = (childPosition n i).1 + 300
    ∧ (childPosition n (i + 1)).2 = (childPosition n i).2 := by
  have hcases : n = 2 ∧ i = 0 ∨ n = 3 ∧ i = 0 ∨ n = 3 ∧ i = 1 := by omega
  rcases hcases with ⟨hn, hi0⟩ | ⟨hn, hi0⟩ | ⟨hn, hi0⟩ <;>
    subst hn <;> subst hi0 <;> exact ⟨by decide, by decide⟩

theorem childPosition_small_sum (n : Nat) (h2 : 2 ≤ n) (h3 : n ≤ 3) :
    ((List.range n).map (fun j => (childPosition n j).1)).sum = 0 := by
  interval_cases n <;> decide

theorem childPosition_grid (n j : Nat) (h : ¬n ≤ 6) :
    childPosition n j =
      (-(((nodesInRow n (j / 3) : Int) - 1) * 320) / 2
         + ((j % 3 : Nat) : Int) * 320,
       230 + ((j / 3 : Nat) : Int) * 250) := by
  unfold childPosition
  rw [if_neg (by omega), if_neg (by omega), if_neg h]

theorem childPosition_x_at (n r c : Nat) (h7 : 7 ≤ n) (hc : c < 3) :
    (childPosition n (3 * r + c)).1 =
      -(((nodesInRow n r : Int) - 1) * 320) / 2 + (c : Int) * 320 := by
  rw [childPosition_grid n (3 * r + c) (by omega)]
  rw [show (3 * r + c) / 3 = r by omega, show (3 * r + c) % 3 = c by omega]

theorem rowIdx_small_bound (n j : Nat) (h : n ≤ 6) : rowIdx n j ≤ 1 := by
  unfold rowIdx
  rw [if_pos h]
  split <;> omega

theorem rowIdx_small_empty (n r : Nat) (h6 : n ≤ 6) (hr : 2 ≤ r) :
    ((Finset.range n).filter (fun j => rowIdx n j = r)) = ∅ := by
  refine Finset.filter_eq_empty_iff.mpr ?_
  intro j hj
  have hb := rowIdx_small_bound n j h6
  omega

theorem childPosition_rows (n r : Nat) (h4 : 4 ≤ n) :
    ((Finset.range n).filter (fun j => rowIdx n j = r)).card ≤ 3
    ∧ ((Finset.range n).filter (fun j => rowIdx n j = r)).sum
        (fun j => (childPosition n j).1) = 0 := by
  by_cases h6 : n ≤ 6
  · rcases Nat.lt_or_ge r 2 with hr | hr
    · interval_cases n <;> interval_cases r <;> exact ⟨by decide, by decide⟩
    · rw [rowIdx_small_empty n r h6 hr]
      exact ⟨by simp, by simp⟩
  · have h7 : 7 ≤ n := by omega
    have hrow3 : ∀ j, rowIdx n j = j / 3 := by
      intro j
      unfold rowIdx
      rw [if_neg (by omega : ¬n ≤ 6)]
    have hchar : ((Finset.range n).filter (fun j => rowIdx n j = r)) =
        Finset.Ico (3 * r) (min n (3 * r + 3)) := by
      ext j
      simp only [Finset.mem_filter, Finset.mem_range, Finset.mem_Ico, hrow3]
      omega
    rw [hchar]
    by_cases hlt : 3 * r < n
    · have hk : min n (3 * r + 3) = 3 * r + min (n - 3 * r) 3 := by omega
      have hrowk : (nodesInRow n r : Nat) = min (n - 3 * r) 3 := by
        unfold nodesInRow
        by_cases hc : r = (n + 3 - 1) / 3 - 1 ∧ n % 3 ≠ 0
        · rw [if_pos hc]
          omega
        · rw [if_neg hc]
          omega
      constructor
      · rw [Nat.card_Ico]
        omega
      · rw [hk, Finset.sum_Ico_eq_sum_range]
        simp only [Nat.add_sub_cancel_left]
        have hk3 : min (n - 3 * r) 3 = 1 ∨ min (n - 3 * r) 3 = 2
            ∨ min (n - 3 * r) 3 = 3 := by omega
        rcases hk3 with hkv | hkv | hkv
        · rw [hkv, Finset.sum_range_succ, Finset.sum_range_zero,
            childPosition_x_at n r 0 h7 (by omega), hrowk, hkv]
          decide
        · rw [hkv, Finset.sum_range_succ, Finset.sum_range_succ,
            Finset.sum_range_zero,
            childPosition_x_at n r 0 h7 (by omega),
            childPosition_x_at n r 1 h7 (by omega), hrowk, hkv]
          decide
        · rw [hkv, Finset.sum_range_succ, Finset.sum_range_succ,
            Finset.sum_range_succ, Finset.sum_range_zero,
            childPosition_x_at n r 0 h7 (by omega),
            childPosition_x_at n r 1 h7 (by omega),
            childPosition_x_at n r 2 h7 (by omega), hrowk, hkv]
          decide
    · have hempty : Finset.Ico (3 * r) (min n (3 * r + 3)) = ∅ := by
        apply Finset.Ico_eq_empty
        omega
      rw [hempty]
      exact ⟨by simp, by simp⟩

/-- Claim C7: The focus layout: (i) the focus node is placed at the origin
whenever the guard passes and the focus id is present in the graph; (ii) a
single child is horizontally centered (`x = 0`); (iii) with 2–3 children the
row is evenly spaced (constant step 300, constant `y`) and horizontally
centered (the `x`s sum to 0); (iv) with 4 or more children every row holds
at most 3 children and is horizontally centered (its `x`s sum to 0). -/
theorem focus_layout_spec (fullNodes : List FNode) (fullEdges : List EdgeData)
    (curNodes : List FNode) (curEdges : List EdgeData) (nodeId : String)
    (n i r : Nat)
    (h1 : nodeId ≠ "") (h2 : fullNodes ≠ []) (h3 : fullEdges ≠ [])
    (h4 : (findNode fullNodes nodeId).isSome = true) :
    (∀ nd ∈ (focusOnNode fullNodes fullEdges curNodes curEdges nodeId).1,
        nd.id = nodeId → nd.position = (0, 0))
    ∧ (childPosition 1 0).1 = 0
    ∧ (2 ≤ n → n ≤ 3 → i + 1 < n →
        (childPosition n (i + 1)).1 = (childPosition n i).1 + 300
        ∧ (childPosition n (i + 1)).2 = (childPosition n i).2)
    ∧ (2 ≤ n → n ≤ 3 →
        ((List.range n).map (fun j => (childPosition n j).1)).sum = 0)
    ∧ (4 ≤ n →
        ((Finset.range n).filter (fun j => rowIdx n j = r)).card ≤ 3
        ∧ ((Finset.range n).filter (fun j => rowIdx n j = r)).sum
            (fun j => (childPosition n j).1) = 0) :=
  ⟨focusOnNode_focus_at_origin fullNodes fullEdges curNodes curEdges nodeId
      h1 h2 h3 h4,
   by decide,
   fun ha hb hcn => childPosition_small_spacing n i ha hb hcn,
   fun ha hb => childPosition_small_sum n ha hb,
   fun ha => childPosition_rows n r ha⟩

/-- Witness for C7: a root with five children; focusing the root puts it at
the origin, and the five children fill a centered top row of three and a
centered bottom row of two. -/
theorem focus_layout_spec_witness :
    (∀ nd ∈ (focusOnNode
        [{ id := "root", label := "Root", content := ""
           status := "in_progress", position := (7, 9) },
         { id := "c1", label := "C1", content := ""
           status := "locked", position := (1, 1) }]
        [{ id := "e1", source := "root", target := "c1" },
         { id := "e2", source := "root", target := "c2" },
         { id := "e3", source := "root", target := "c3" },
         { id := "e4", source := "root", target := "c4" },
         { id := "e5", source := "root", target := "c5" }]
        [] [] "root").1,
        nd.id = "root" → nd.position = (0, 0))
    ∧ (childPosition 1 0).1 = 0
    ∧ (2 ≤ 5 → 5 ≤ 3 → 0 + 1 < 5 →
        (childPosition 5 (0 + 1)).1 = (childPosition 5 0).1 + 300
        ∧ (childPosition 5 (0 + 1)).2 = (childPosition 5 0).2)
    ∧ (2 ≤ 5 → 5 ≤ 3 →
        ((List.range 5).map (fun j => (childPosition 5 j).1)).sum = 0)
    ∧ (4 ≤ 5 →
        ((Finset.range 5).filter (fun j => rowIdx 5 j = 0)).card ≤ 3
        ∧ ((Finset.range 5).filter (fun j => rowIdx 5 j = 0)).sum
            (fun j => (childPosition 5 j).1) = 0) :=
  focus_layout_spec
    [{ id := "root", label := "Root", content := ""
       status := "in_progress", position := (7, 9) },
     { id := "c1", label := "C1", content := ""
       status := "locked", position := (1, 1) }]
    [{ id := "e1", source := "root", target := "c1" },
     { id := "e2", source := "root", target := "c2" },
     { id := "e3", source := "root", target := "c3" },
     { id := "e4", source := "root", target := "c4" },
     { id := "e5", source := "root", target := "c5" }]
    [] [] "root" 5 0 0 (by decide) (by decide) (by decide) (by decide)

/-! ## `arrangeNodesHierarchically` (`MindMap.tsx`)

```ts
const nodeMap = new Map(...);                       // every node, level 0
edges.forEach(edge => {                             // both endpoints present
  source.children.push(target); target.parents.push(source); });
const rootNodes = [...nodeMap.values()].filter(i => i.parents.length === 0);
const queue = [...rootNodes];
while (queue.length > 0) {
  const current = queue.shift();
  current.children.forEach(child => {
    if (child.level <= current.level) { child.level = current.level + 1; }
    queue.push(child);                              // unconditional re-enqueue
  });
}
// group by level; per level: startX = -(count*250)/2, x = startX + idx*250,
// y = level*200 — every node of nodeMap receives a position
```
Nodes are represented by their ids (only ids, levels and group sizes flow
into this logic).  The unconditional re-enqueue makes the loop's termination
depend on acyclicity, witnessed below by a rank function that strictly
increases along edges; the loop is embedded fuel-indexed and the proof
supplies a sufficient fuel. -/

/-- The level map `node id ↦ level`. -/
abbrev Levels := List (String × Nat)

/-- Children relation built from the edge list (both endpoints must be in
the node map, as in the source's `if (source && target)`). -/
def bfsChildren (ids : List String) (edges : List EdgeData) (n : String) :
    List String :=
  (edges.filter (fun e =>
    e.source = n ∧ e.source ∈ ids ∧ e.target ∈ ids)).map (fun e => e.target)

/-- Parents relation, built the same way. -/
def bfsParents (ids : List String) (edges : List EdgeData) (n : String) :
    List String :=
  (edges.filter (fun e =>
    e.target = n ∧ e.source ∈ ids ∧ e.target ∈ ids)).map (fun e => e.source)

/-- Roots (`rootNodes`): nodes with no parents. -/
def bfsRoots (ids : List String) (edges : List EdgeData) : List String :=
  ids.filter (fun n => (bfsParents ids edges n).isEmpty)

/-- Reading a level (`0` initially, as in `nodeMap.set(id, { level: 0 })`). -/
def levelGet (lv : Levels) (n : String) : Nat := (alookup lv n).getD 0

/-- All node levels start at `0`. -/
def initLevels (ids : List String) : Levels := ids.map (fun i => (i, 0))

/-- One dequeue: bump each child whose level does not exceed the current
node's (re-reading the map per child, as object mutation does). -/
def stepLevels (ids : List String) (edges : List EdgeData) (lv : Levels)
    (cur : String) : Levels :=
  (bfsChildren ids edges cur).foldl
    (fun m c =>
      if levelGet m c ≤ levelGet m cur then aset m c (levelGet m cur + 1)
      else m) lv

/-- The `while (queue.length > 0)` loop, fuel-indexed: children are pushed
unconditionally, exactly as in the source. -/
def bfsRun (ids : List String) (edges : List EdgeData) :
    Nat → Levels → List String → Option Levels
  | _, lv, [] => some lv
  | 0, _, _ :: _ => none
  | fuel + 1, lv, cur :: q =>
      bfsRun ids edges fuel (stepLevels ids edges lv cur)
        (q ++ bfsChildren ids edges cur)

/-- Termination weight of a queue entry: `(E+1)^(mr - rank n)` for `E` edges
and a rank function bounded by `mr`. -/
def bfsWeight (edges : List EdgeData) (rank : String → Nat) (mr : Nat)
    (n : String) : Nat :=
  (edges.length + 1) ^ (mr - rank n)

/-- Total weight of a queue. -/
def queueMeasure (edges : List EdgeData) (rank : String → Nat) (mr : Nat)
    (q : List String) : Nat :=
  (q.map (bfsWeight edges rank mr)).sum

theorem bfsChildren_subset_ids (ids : List String) (edges : List EdgeData)
    (cur : String) : ∀ c ∈ bfsChildren ids edges cur, c ∈ ids := by
  intro c hc
  unfold bfsChildren at hc
  rcases List.mem_map.mp hc with ⟨e, he, rfl⟩
  rcases List.mem_filter.mp he with ⟨_, hcond⟩
  exact (of_decide_eq_true hcond).2.2

theorem list_sum_le_length_mul (l : List Nat) (b : Nat)
    (h : ∀ x ∈ l, x ≤ b) : l.sum ≤ l.length * b := by
  induction l with
  | nil => simp
  | cons hd tl ih =>
      have h1 := h hd (List.mem_cons_self _ _)
      have h2 := ih (fun x hx => h x (List.mem_cons_of_mem _ hx))
      calc (hd :: tl).sum = hd + tl.sum := by simp
        _ ≤ b + tl.length * b := Nat.add_le_add h1 h2
        _ = (tl.length + 1) * b := by ring
        _ = (hd :: tl).length * b := by simp

theorem children_measure_lt (ids : List String) (edges : List EdgeData)
    (rank : String → Nat) (mr : Nat) (cur : String)
    (hrank : ∀ e ∈ edges, e.source ∈ ids → e.target ∈ ids →
      rank e.source < rank e.target)
    (hmr : ∀ n ∈ ids, rank n ≤ mr) (_hcur : cur ∈ ids) :
    queueMeasure edges rank mr (bfsChildren ids edges cur) <
      bfsWeight edges rank mr cur := by
  have hw : 0 < bfsWeight edges rank mr cur := pow_pos (by omega) _
  by_cases hch : bfsChildren ids edges cur = []
  · rw [hch]
    simpa [queueMeasure] using hw
  · have hrank_mem : ∀ c ∈ bfsChildren ids edges cur,
        rank cur < rank c ∧ c ∈ ids := by
      intro c hc
      unfold bfsChildren at hc
      rcases List.mem_map.mp hc with ⟨e, he, rfl⟩
      rcases List.mem_filter.mp he with ⟨hee, hcond⟩
      obtain ⟨hsrc, hsin, htin⟩ := of_decide_eq_true hcond
      exact ⟨hsrc ▸ hrank e hee hsin htin, htin⟩
    obtain ⟨c0, hc0⟩ := List.exists_mem_of_ne_nil _ hch
    have hlt_mr : rank cur < mr := by
      obtain ⟨hr1, hr2⟩ := hrank_mem c0 hc0
      have := hmr c0 hr2
      omega
    have hbound : ∀ x ∈ (bfsChildren ids edges cur).map
        (bfsWeight edges rank mr),
        x ≤ (edges.length + 1) ^ (mr - rank cur - 1) := by
      intro x hx
      rcases List.mem_map.mp hx with ⟨c, hc, rfl⟩
      obtain ⟨hr1, hr2⟩ := hrank_mem c hc
      have hr3 := hmr c hr2
      exact Nat.pow_le_pow_right (by omega) (by omega)
    have hlen : (bfsChildren ids edges cur).length ≤ edges.length := by
      unfold bfsChildren
      rw [List.length_map]
      exact List.length_filter_le _ _
    have hks : mr - rank cur - 1 + 1 = mr - rank cur := by omega
    calc queueMeasure edges rank mr (bfsChildren ids edges cur)
        ≤ ((bfsChildren ids edges cur).map (bfsWeight edges rank mr)).length
            * ((edges.length + 1) ^ (mr - rank cur - 1)) :=
          list_sum_le_length_mul _ _ hbound
      _ ≤ edges.length * (edges.length + 1) ^ (mr - rank cur - 1) := by
          rw [List.length_map]
          exact Nat.mul_le_mul_right _ hlen
      _ < (edges.length + 1) * (edges.length + 1) ^ (mr - rank cur - 1) :=
          Nat.mul_lt_mul_of_lt_of_le (by omega) le_rfl (pow_pos (by omega) _)
      _ = (edges.length + 1) ^ (mr - rank cur) := by
          rw [← pow_succ', hks]

theorem bfsRun_terminates (ids : List String) (edges : List EdgeData)
    (rank : String → Nat) (mr : Nat)
    (hrank : ∀ e ∈ edges, e.source ∈ ids → e.target ∈ ids →
      rank e.source < rank e.target)
    (hmr : ∀ n ∈ ids, rank n ≤ mr) :
    ∀ (fuel : Nat) (lv : Levels) (q : List String), (∀ n ∈ q, n ∈ ids) →
      queueMeasure edges rank mr q ≤ fuel →
      (bfsRun ids edges fuel lv q).isSome = true := by
  intro fuel
  induction fuel with
  | zero =>
      intro lv q hq hm
      cases q with
      | nil => rfl
      | cons cur rest =>
          exfalso
          have hw : 0 < bfsWeight edges rank mr cur := pow_pos (by omega) _
          have : bfsWeight edges rank mr cur +
              queueMeasure edges rank mr rest ≤ 0 := by
            simpa [queueMeasure] using hm
          omega
  | succ fuel ih =>
      intro lv q hq hm
      cases q with
      | nil => rfl
      | cons cur rest =>
          have hcur : cur ∈ ids := hq cur (List.mem_cons_self _ _)
          show (bfsRun ids edges fuel (stepLevels ids edges lv cur)
            (rest ++ bfsChildren ids edges cur)).isSome = true
          apply ih
          · intro n hn
            rcases List.mem_append.mp hn with hn | hn
            · exact hq n (List.mem_cons_of_mem _ hn)
            · exact bfsChildren_subset_ids ids edges cur n hn
          · have hkey := children_measure_lt ids edges rank mr cur hrank
              hmr hcur
            have hsplit : queueMeasure edges rank mr
                (rest ++ bfsChildren ids edges cur) =
                queueMeasure edges rank mr rest +
                  queueMeasure edges rank mr (bfsChildren ids edges cur) := by
              simp [queueMeasure]
            have hm' : bfsWeight edges rank mr cur +
                queueMeasure edges rank mr rest ≤ fuel + 1 := by
              simpa [queueMeasure] using hm
            omega

/-- Per-level positioning (`forEach` with index): `x = startX + idx * 250`,
`y = level * 200` with `startX = -(count * 250) / 2`. -/
def positionGroup (L total : Nat) : Nat → List String → List (String × (Int × Int))
  | _, [] => []
  | idx, n :: rest =>
      (n, (-((total : Int) * 250) / 2 + (idx : Int) * 250, (L : Int) * 200))
        :: positionGroup L total (idx + 1) rest

/-- The position-assignment phase: iterate the distinct levels (the source
sorts the keys — JavaScript's default string sort; the enumeration order
does not change which nodes receive positions) and place each level
group. -/
def assignPositions (ids : List String) (lv : Levels) :
    List (String × (Int × Int)) :=
  (((ids.map (levelGet lv)).dedup).mergeSort (· ≤ ·)).flatMap (fun L =>
    positionGroup L (ids.filter (fun n => levelGet lv n = L)).length 0
      (ids.filter (fun n => levelGet lv n = L)))

theorem positionGroup_isSome (L total : Nat) (group : List String)
    (n : String) (hn : n ∈ group) :
    ∀ idx, (alookup (positionGroup L total idx group) n).isSome = true := by
  induction group with
  | nil => cases hn
  | cons hd tl ih =>
      intro idx
      unfold positionGroup
      unfold alookup
      by_cases hh : hd = n
      · rw [if_pos hh]; rfl
      · rw [if_neg hh]
        cases hn with
        | head => exact absurd rfl hh
        | tail _ h2 => exact ih h2 (idx + 1)

theorem alookup_append_isSome {β : Type} (l1 l2 : List (String × β))
    (k : String) :
    (alookup (l1 ++ l2) k).isSome =
      ((alookup l1 k).isSome || (alookup l2 k).isSome) := by
  induction l1 with
  | nil => simp [alookup]
  | cons hd tl ih =>
      by_cases hh : hd.1 = k
      · simp [alookup, hh]
      · simpa [alookup, hh] using ih

theorem bind_block_isSome {β : Type} (blk : Nat → List (String × β))
    (n : String) :
    ∀ (ls : List Nat) (L : Nat), L ∈ ls →
      (alookup (blk L) n).isSome = true →
      (alookup (ls.flatMap blk) n).isSome = true := by
  intro ls
  induction ls with
  | nil => intro L hL; cases hL
  | cons hd tl ih =>
      intro L hL hsome
      show (alookup (blk hd ++ tl.flatMap blk) n).isSome = true
      rw [alookup_append_isSome]
      cases hL with
      | head => rw [hsome]; rfl
      | tail _ h2 =>
          rw [ih L h2 hsome]
          exact Bool.or_true _

theorem assignPositions_covers (ids : List String) (lv : Levels) :
    ∀ n ∈ ids, (alookup (assignPositions ids lv) n).isSome = true := by
  intro n hn
  have hmemgrp : n ∈ ids.filter (fun m => levelGet lv m = levelGet lv n) :=
    List.mem_filter.mpr ⟨hn, decide_eq_true rfl⟩
  have hblk : (alookup (positionGroup (levelGet lv n)
      (ids.filter (fun m => levelGet lv m = levelGet lv n)).length 0
      (ids.filter (fun m => levelGet lv m = levelGet lv n))) n).isSome =
      true :=
    positionGroup_isSome _ _ _ n hmemgrp 0
  have hL : levelGet lv n ∈
      ((ids.map (levelGet lv)).dedup).mergeSort (· ≤ ·) := by
    rw [List.mem_mergeSort]
    exact List.mem_dedup.mpr (List.mem_map_of_mem _ hn)
  exact bind_block_isSome _ n _ _ hL hblk

/-- Claim C10: Whenever the edges admit a rank function that strictly
increases along every edge between listed nodes (an acyclicity witness),
the BFS level-assignment loop of `arrangeNodesHierarchically` — which
re-enqueues children unconditionally — terminates (with
`queueMeasure`-many dequeues as sufficient fuel), and the subsequent
per-level positioning assigns a position to every listed node. -/
theorem arrange_terminates_and_positions_all (ids : List String)
    (edges : List EdgeData) (rank : String → Nat) (mr : Nat)
    (hrank : ∀ e ∈ edges, e.source ∈ ids → e.target ∈ ids →
      rank e.source < rank e.target)
    (hmr : ∀ n ∈ ids, rank n ≤ mr) :
    (∃ lvOut, bfsRun ids edges
        (queueMeasure edges rank mr (bfsRoots ids edges))
        (initLevels ids) (bfsRoots ids edges) = some lvOut)
    ∧ ∀ (lv : Levels) (n : String), n ∈ ids →
        (alookup (assignPositions ids lv) n).isSome = true := by
  constructor
  · have hterm := bfsRun_terminates ids edges rank mr hrank hmr
      (queueMeasure edges rank mr (bfsRoots ids edges))
      (initLevels ids) (bfsRoots ids edges)
      (fun n hn => List.mem_of_mem_filter hn) le_rfl
    exact Option.isSome_iff_exists.mp hterm
  · intro lv n hn
    exact assignPositions_covers ids lv n hn

/-- Witness for C10: the three-node chain `a → b → c` with the depth rank. -/
theorem arrange_terminates_witness :
    (∃ lvOut, bfsRun ["a", "b", "c"]
        [{ id := "e1", source := "a", target := "b" },
         { id := "e2", source := "b", target := "c" }]
        (queueMeasure
          [{ id := "e1", source := "a", target := "b" },
           { id := "e2", source := "b", target := "c" }]
          (fun s => if s = "b" then 1 else if s = "c" then 2 else 0) 2
          (bfsRoots ["a", "b", "c"]
            [{ id := "e1", source := "a", target := "b" },
             { id := "e2", source := "b", target := "c" }]))
        (initLevels ["a", "b", "c"])
        (bfsRoots ["a", "b", "c"]
          [{ id := "e1", source := "a", target := "b" },
           { id := "e2", source := "b", target := "c" }]) = some lvOut)
    ∧ ∀ (lv : Levels) (n : String), n ∈ ["a", "b", "c"] →
        (alookup (assignPositions ["a", "b", "c"] lv) n).isSome = true :=
  arrange_terminates_and_positions_all ["a", "b", "c"]
    [{ id := "e1", source := "a", target := "b" },
     { id := "e2", source := "b", target := "c" }]
    (fun s => if s = "b" then 1 else if s = "c" then 2 else 0) 2
    (by decide) (by decide)

end Mindmap
